import Mathlib

/-!
Verification of the connection registry and broadcast fan-out engine of a
FastAPI WebSocket chat backend (`src/main.py`).

Connections are identified by their object identity; we model each live
websocket by a natural-number identity.  The Python `Set[WebSocket]` held in
`ConnectionManager.active_connections` is modelled as a duplicate-free list of
identities (`setAdd` is `set.add`, a no-op on a member; `setDiscard` is
`set.discard`, a no-op on a non-member).

Network effects are modelled with an explicit failure oracle
`fails : Nat → Bool` saying which connections' `send_text` calls raise, and a
`PyResult` type distinguishing a normal return from a raised exception.
-/

namespace FastapiChat

/-- Result of running a piece of Python code: either a normal return of a
value, or a raised exception carrying a description. -/
inductive PyResult (α : Type) where
  | ok : α → PyResult α
  | exn : String → PyResult α
deriving DecidableEq, Repr

/-- The state of one websocket that matters to the registry code: whether the
server side of the connection-establishment handshake has been completed
(Starlette's `websocket.accept()`). -/
structure WebSocketState where
  accepted : Bool
deriving DecidableEq, Repr

/-- `ConnectionManager`: its single field `active_connections`, a Python set
of websockets keyed by object identity, modelled as a duplicate-free list of
connection identities. -/
structure ConnectionManager where
  active_connections : List Nat
deriving DecidableEq, Repr

/-- Python `set.add`: inserts an element; a no-op when it is already a
member. -/
def setAdd (s : List Nat) (x : Nat) : List Nat :=
  if x ∈ s then s else s ++ [x]

/-- Python `set.discard`: removes an element when present; a no-op (and never
an error) when absent. -/
def setDiscard (s : List Nat) (x : Nat) : List Nat :=
  s.filter (fun y => y ≠ x)

/-- `await websocket.accept()`: completes the server side of the WebSocket
handshake for connection `ws`, marking it accepted. -/
def acceptWs (conns : Nat → WebSocketState) (ws : Nat) : Nat → WebSocketState :=
  fun c => if c = ws then { accepted := true } else conns c

/-- `ConnectionManager.connect`: `await websocket.accept()` followed by
`self.active_connections.add(websocket)`.  Returns the updated manager state
and the updated per-connection handshake states. -/
def connect (m : ConnectionManager) (conns : Nat → WebSocketState) (ws : Nat) :
    ConnectionManager × (Nat → WebSocketState) :=
  ({ active_connections := setAdd m.active_connections ws }, acceptWs conns ws)

/-- `ConnectionManager.disconnect`: `self.active_connections.discard(websocket)`.
`discard` never raises, so this is a total function on the manager state. -/
def disconnect (m : ConnectionManager) (ws : Nat) : ConnectionManager :=
  { active_connections := setDiscard m.active_connections ws }

/-- `conn.send_text(message)` under the failure oracle: raises a `WriteError`
on a failing connection, returns normally otherwise. -/
def send_text (fails : Nat → Bool) (ws : Nat) (message : String) : PyResult Unit :=
  if fails ws then .exn "WriteError" else .ok ()

/-- `ConnectionManager.send_personal_message`: a single
`await websocket.send_text(message)` with no exception handling, so whatever
`send_text` raises propagates to the caller. -/
def send_personal_message (fails : Nat → Bool) (message : String) (ws : Nat) :
    PyResult Unit :=
  send_text fails ws message

/-- The `for conn in list(self.active_connections)` loop of `broadcast`: keeps
every connection of the snapshot except the one identical to `exclude`
(`if exclude is not None and conn is exclude: continue`). -/
def sendTaskTargets (snapshot : List Nat) (exclude : Option Nat) : List Nat :=
  snapshot.filter (fun conn => decide (¬ exclude = some conn))

/-- `await asyncio.gather(*tasks, return_exceptions=True)`: every task runs to
completion, exceptions are collected into the result list as values, and the
`gather` call itself returns normally. -/
def gather_return_exceptions (tasks : List (PyResult Unit)) :
    PyResult (List (PyResult Unit)) :=
  .ok tasks

/-- `ConnectionManager.broadcast(message, exclude)`.  Returns the (unchanged)
manager state paired with the call's outcome: on a normal return, the list of
initiated writes, one entry `(conn, message, outcome)` per `send_text` task.
The body: early return on an empty set; build `send_tasks` over a snapshot of
the set, skipping `exclude` by identity; `gather` them with
`return_exceptions=True` inside a `try/except` that logs and discards any
exception. -/
def broadcast (m : ConnectionManager) (fails : Nat → Bool) (message : String)
    (exclude : Option Nat) :
    ConnectionManager × PyResult (List (Nat × String × PyResult Unit)) :=
  if m.active_connections = [] then (m, .ok [])
  else
    let send_tasks := (sendTaskTargets m.active_connections exclude).map
      (fun conn => (conn, message, send_text fails conn message))
    if send_tasks = [] then (m, .ok [])
    else
      match gather_return_exceptions (send_tasks.map (fun t => t.2.2)) with
      | .ok _ => (m, .ok send_tasks)
      | .exn _ => (m, .ok send_tasks)

/-- One registry operation of the `Connect`/`Disconnect` interface. -/
inductive RegistryOp where
  | connectOp (ws : Nat)
  | disconnectOp (ws : Nat)
deriving DecidableEq, Repr

/-- Apply one registry operation to the membership set (the registry effect of
`connect`, and `disconnect`). -/
def applyOp (s : List Nat) : RegistryOp → List Nat
  | .connectOp ws => setAdd s ws
  | .disconnectOp ws => setDiscard s ws

/-- Run a sequence of registry operations starting from the empty registry. -/
def runOps (ops : List RegistryOp) : List Nat :=
  ops.foldl applyOp []

/-- Whether identity `ws` is still connected after `ops`, starting from
connectedness `b`: the last operation mentioning `ws` decides. -/
def stillConnectedFrom (b : Bool) (ops : List RegistryOp) (ws : Nat) : Bool :=
  ops.foldl (fun acc op =>
    match op with
    | .connectOp w => if w = ws then true else acc
    | .disconnectOp w => if w = ws then false else acc) b

/-- Whether identity `ws` has been connected by `ops` (from the empty
registry) and not subsequently disconnected. -/
def stillConnected (ops : List RegistryOp) (ws : Nat) : Bool :=
  stillConnectedFrom false ops ws

/-- The distinct identities that some `connectOp` of `ops` mentions. -/
def connectedIds (ops : List RegistryOp) : List Nat :=
  (ops.filterMap (fun op =>
    match op with
    | .connectOp w => some w
    | .disconnectOp _ => none)).dedup

/-- Join-notice text broadcast by the websocket endpoint. -/
def joinNotice (clientId : String) : String :=
  "Client #" ++ clientId ++ " joined"

/-- The join path of `websocket_endpoint`: `await manager.connect(websocket)`
then `await manager.broadcast(f"Client #{client_id} joined", exclude=None)`.
Returns the final manager state, the websocket states, and the broadcast
outcome. -/
def websocketJoin (m : ConnectionManager) (conns : Nat → WebSocketState)
    (fails : Nat → Bool) (ws : Nat) (clientId : String) :
    ConnectionManager × (Nat → WebSocketState) ×
      PyResult (List (Nat × String × PyResult Unit)) :=
  let step := connect m conns ws
  let bc := broadcast step.1 fails (joinNotice clientId) none
  (bc.1, step.2, bc.2)

/-- An observable operation initiated by the endpoint's message loop. -/
inductive Event where
  | sendPersonal (target : Nat) (message : String)
  | broadcastAll (message : String) (exclude : Option Nat)
deriving DecidableEq, Repr

/-- Whether an event is a broadcast. -/
def Event.isBroadcast : Event → Bool
  | .broadcastAll _ _ => true
  | _ => false

/-- The body of the endpoint's `while True` loop after a successful
`receive_text` of `data` on connection `ws`: first the direct echo
`send_personal_message(f"You wrote: {data}", websocket)`, then
`broadcast(f"Client #{client_id} says: {data}", exclude=websocket)`, in that
textual order. -/
def handleInbound (ws : Nat) (clientId data : String) : List Event :=
  [ .sendPersonal ws ("You wrote: " ++ data),
    .broadcastAll ("Client #" ++ clientId ++ " says: " ++ data) (some ws) ]

/-! ### Helper lemmas -/

theorem broadcast_snd_eq (m : ConnectionManager) (fails : Nat → Bool)
    (message : String) (exclude : Option Nat) :
    (broadcast m fails message exclude).2 =
      .ok ((sendTaskTargets m.active_connections exclude).map
        (fun conn => (conn, message, send_text fails conn message))) := by
  unfold broadcast
  by_cases h1 : m.active_connections = []
  · simp [h1, sendTaskTargets]
  · simp only [h1, if_false]
    by_cases h2 : (sendTaskTargets m.active_connections exclude).map
        (fun conn => (conn, message, send_text fails conn message)) = []
    · simp [h2]
    · simp [h2, gather_return_exceptions]

theorem mem_setAdd {s : List Nat} {x ws : Nat} :
    ws ∈ setAdd s x ↔ ws ∈ s ∨ ws = x := by
  unfold setAdd
  split
  · rename_i hx
    constructor
    · exact fun h => Or.inl h
    · rintro (h | rfl)
      · exact h
      · exact hx
  · simp

theorem mem_setDiscard {s : List Nat} {x ws : Nat} :
    ws ∈ setDiscard s x ↔ ws ∈ s ∧ ws ≠ x := by
  simp [setDiscard, List.mem_filter]

theorem setAdd_nodup {s : List Nat} (h : s.Nodup) (x : Nat) :
    (setAdd s x).Nodup := by
  unfold setAdd
  split
  · exact h
  · rename_i hx
    simpa using List.Nodup.concat hx h

theorem mem_sendTaskTargets {snapshot : List Nat} {exclude : Option Nat}
    {c : Nat} :
    c ∈ sendTaskTargets snapshot exclude ↔ c ∈ snapshot ∧ ¬ exclude = some c := by
  simp [sendTaskTargets, List.mem_filter]

theorem sendTaskTargets_none (snapshot : List Nat) :
    sendTaskTargets snapshot none = snapshot := by
  simp [sendTaskTargets]

theorem sendTaskTargets_count {snapshot : List Nat} (hnd : snapshot.Nodup)
    {exclude : Option Nat} {c : Nat} (hc : c ∈ snapshot)
    (hne : ¬ exclude = some c) :
    (sendTaskTargets snapshot exclude).count c = 1 :=
  List.count_eq_one_of_mem (List.Nodup.filter _ hnd)
    (mem_sendTaskTargets.mpr ⟨hc, hne⟩)

theorem writes_map_fst (targets : List Nat) (fails : Nat → Bool)
    (message : String) :
    ((targets.map (fun conn => (conn, message, send_text fails conn message))).map
      (fun w => w.1)) = targets := by
  simp [Function.comp_def]

/-! ### Claim theorems -/

/-- C1: for any message, registered connection set (duplicate-free, as a
Python set is) and exclude argument, `broadcast` initiates exactly one write
of the message to every connection of the snapshot whose identity differs
from `exclude`, every initiated write carries the message, and no write is
initiated to `exclude` itself. -/
theorem broadcast_writes_each_nonexcluded_once
    (m : ConnectionManager) (fails : Nat → Bool) (message : String)
    (exclude : Option Nat) (hnd : m.active_connections.Nodup) :
    ∃ writes, (broadcast m fails message exclude).2 = .ok writes ∧
      (∀ c ∈ m.active_connections, ¬ exclude = some c →
        (writes.map (fun w => w.1)).count c = 1) ∧
      (∀ w ∈ writes, w.2.1 = message) ∧
      (∀ e, exclude = some e → ∀ w ∈ writes, w.1 ≠ e) := by
  refine ⟨_, broadcast_snd_eq m fails message exclude, ?_, ?_, ?_⟩
  · intro c hc hne
    rw [writes_map_fst]
    exact sendTaskTargets_count hnd hc hne
  · intro w hw
    rcases List.mem_map.mp hw with ⟨conn, _, rfl⟩
    rfl
  · rintro e rfl w hw
    rcases List.mem_map.mp hw with ⟨conn, hconn, rfl⟩
    have := (mem_sendTaskTargets.mp hconn).2
    simp only [Option.some.injEq] at this
    exact fun h => this (h ▸ rfl)

/-- C1 witness: three registered connections, excluding connection 1. -/
theorem broadcast_writes_each_nonexcluded_once_witness :
    ∃ writes,
      (broadcast ⟨[1, 2, 3]⟩ (fun _ => false) "m" (some 1)).2 = .ok writes ∧
      (∀ c ∈ [1, 2, 3], ¬ (some 1 : Option Nat) = some c →
        (writes.map (fun w => w.1)).count c = 1) ∧
      (∀ w ∈ writes, w.2.1 = "m") ∧
      (∀ e, (some 1 : Option Nat) = some e → ∀ w ∈ writes, w.1 ≠ e) :=
  broadcast_writes_each_nonexcluded_once ⟨[1, 2, 3]⟩ (fun _ => false) "m"
    (some 1) (by decide)

/-- C2: even when the write to some registered connection `b` fails,
`broadcast` still initiates a write of the message to every non-excluded
connection of the snapshot (the failing write itself appears among them as a
collected exception), and the call returns normally (`.ok`), raising nothing
to its caller. -/
theorem broadcast_contains_failures
    (m : ConnectionManager) (fails : Nat → Bool) (message : String)
    (exclude : Option Nat) (b : Nat) (hb : b ∈ m.active_connections)
    (hfail : fails b = true) :
    ∃ writes, (broadcast m fails message exclude).2 = .ok writes ∧
      (∀ c ∈ m.active_connections, ¬ exclude = some c →
        ∃ r, (c, message, r) ∈ writes) ∧
      (¬ exclude = some b → (b, message, .exn "WriteError") ∈ writes) := by
  refine ⟨_, broadcast_snd_eq m fails message exclude, ?_, ?_⟩
  · intro c hc hne
    exact ⟨send_text fails c message,
      List.mem_map.mpr ⟨c, mem_sendTaskTargets.mpr ⟨hc, hne⟩, rfl⟩⟩
  · intro hne
    have hmem : b ∈ sendTaskTargets m.active_connections exclude :=
      mem_sendTaskTargets.mpr ⟨hb, hne⟩
    have : send_text fails b message = .exn "WriteError" := by
      simp [send_text, hfail]
    exact List.mem_map.mpr ⟨b, hmem, by rw [this]⟩

/-- C2 witness: connections 1, 2, 3 registered, excluding 1, connection 2's
write fails. -/
theorem broadcast_contains_failures_witness :
    ∃ writes,
      (broadcast ⟨[1, 2, 3]⟩ (fun c => c = 2) "m" (some 1)).2 = .ok writes ∧
      (∀ c ∈ [1, 2, 3], ¬ (some 1 : Option Nat) = some c →
        ∃ r, (c, "m", r) ∈ writes) ∧
      (¬ (some 1 : Option Nat) = some 2 →
        (2, "m", PyResult.exn "WriteError") ∈ writes) :=
  broadcast_contains_failures ⟨[1, 2, 3]⟩ (fun c => c = 2) "m" (some 1) 2
    (by decide) (by decide)

/-- C4: `broadcast` on an empty registry returns normally and initiates zero
writes, for every message, exclude argument and failure behaviour, leaving
the registry empty. -/
theorem broadcast_empty_noop (m : ConnectionManager) (fails : Nat → Bool)
    (message : String) (exclude : Option Nat)
    (hempty : m.active_connections = []) :
    broadcast m fails message exclude = (m, .ok []) := by
  unfold broadcast
  simp [hempty]

/-- C4 witness: the empty registry. -/
theorem broadcast_empty_noop_witness :
    broadcast ⟨[]⟩ (fun _ => true) "m" (some 0) = (⟨[]⟩, .ok []) :=
  broadcast_empty_noop ⟨[]⟩ (fun _ => true) "m" (some 0) rfl

/-- C8: a failing write inside `send_personal_message` surfaces as a raised
exception to its caller, while the same failure oracle never makes
`broadcast` raise — `broadcast` always returns normally. -/
theorem sendto_failure_propagates (fails : Nat → Bool) (message : String)
    (ws : Nat) (hfail : fails ws = true) :
    send_personal_message fails message ws = .exn "WriteError" ∧
    ∀ (m : ConnectionManager) (exclude : Option Nat),
      ∃ writes, (broadcast m fails message exclude).2 = .ok writes := by
  constructor
  · simp [send_personal_message, send_text, hfail]
  · intro m exclude
    exact ⟨_, broadcast_snd_eq m fails message exclude⟩

/-- C8 witness: connection 0's writes fail. -/
theorem sendto_failure_propagates_witness :
    send_personal_message (fun _ => true) "m" 0 = .exn "WriteError" ∧
    ∀ (m : ConnectionManager) (exclude : Option Nat),
      ∃ writes, (broadcast m (fun _ => true) "m" exclude).2 = .ok writes :=
  sendto_failure_propagates (fun _ => true) "m" 0 rfl

/-- C10: `broadcast` never mutates the registry: the manager state it returns
is the one it was given, for every message, exclude argument and failure
behaviour of the individual writes. -/
theorem broadcast_preserves_registry (m : ConnectionManager)
    (fails : Nat → Bool) (message : String) (exclude : Option Nat) :
    (broadcast m fails message exclude).1 = m := by
  unfold broadcast
  split
  · rfl
  · dsimp only
    split
    · rfl
    · split <;> rfl

theorem applyOp_nodup {s : List Nat} (h : s.Nodup) (op : RegistryOp) :
    (applyOp s op).Nodup := by
  cases op with
  | connectOp ws => exact setAdd_nodup h ws
  | disconnectOp ws => exact List.Nodup.filter _ h

theorem foldl_applyOp_nodup (ops : List RegistryOp) :
    ∀ {s : List Nat}, s.Nodup → (ops.foldl applyOp s).Nodup := by
  induction ops with
  | nil => exact fun h => h
  | cons op ops ih =>
    intro s h
    exact ih (applyOp_nodup h op)

theorem mem_foldl_applyOp (ops : List RegistryOp) :
    ∀ (s : List Nat) (ws : Nat),
      ws ∈ ops.foldl applyOp s ↔
        stillConnectedFrom (decide (ws ∈ s)) ops ws = true := by
  induction ops with
  | nil =>
    intro s ws
    simp [stillConnectedFrom]
  | cons op ops ih =>
    intro s ws
    cases op with
    | connectOp w =>
      have h1 : List.foldl applyOp s (RegistryOp.connectOp w :: ops) =
          List.foldl applyOp (setAdd s w) ops := rfl
      have h2 : stillConnectedFrom (decide (ws ∈ s))
            (RegistryOp.connectOp w :: ops) ws =
          stillConnectedFrom (if w = ws then true else decide (ws ∈ s)) ops ws :=
        rfl
      rw [h1, h2, ih (setAdd s w) ws]
      have hd : decide (ws ∈ setAdd s w) =
          if w = ws then true else decide (ws ∈ s) := by
        by_cases hw : w = ws
        · subst hw
          simp [mem_setAdd]
        · have : ws ∈ setAdd s w ↔ ws ∈ s := by
            rw [mem_setAdd]
            exact ⟨fun h => h.elim id (fun h => absurd h.symm hw), Or.inl⟩
          simp [this, hw]
      rw [hd]
    | disconnectOp w =>
      have h1 : List.foldl applyOp s (RegistryOp.disconnectOp w :: ops) =
          List.foldl applyOp (setDiscard s w) ops := rfl
      have h2 : stillConnectedFrom (decide (ws ∈ s))
            (RegistryOp.disconnectOp w :: ops) ws =
          stillConnectedFrom (if w = ws then false else decide (ws ∈ s)) ops ws :=
        rfl
      rw [h1, h2, ih (setDiscard s w) ws]
      have hd : decide (ws ∈ setDiscard s w) =
          if w = ws then false else decide (ws ∈ s) := by
        by_cases hw : w = ws
        · subst hw
          simp [mem_setDiscard]
        · have : ws ∈ setDiscard s w ↔ ws ∈ s := by
            rw [mem_setDiscard]
            exact ⟨And.left, fun h => ⟨h, fun he => hw he.symm⟩⟩
          simp [this, hw]
      rw [hd]

theorem mem_runOps {ops : List RegistryOp} {ws : Nat} :
    ws ∈ runOps ops ↔ stillConnected ops ws = true := by
  unfold runOps stillConnected
  rw [mem_foldl_applyOp ops [] ws]
  simp

theorem stillConnectedFrom_false_connect {ops : List RegistryOp} {ws : Nat}
    (h : stillConnectedFrom false ops ws = true) :
    RegistryOp.connectOp ws ∈ ops := by
  induction ops with
  | nil => simp [stillConnectedFrom] at h
  | cons op ops ih =>
    cases op with
    | connectOp w =>
      by_cases hw : w = ws
      · subst hw
        exact List.mem_cons_self _ _
      · have hstep : stillConnectedFrom false (RegistryOp.connectOp w :: ops) ws =
            stillConnectedFrom false ops ws := by
          simp [stillConnectedFrom, List.foldl_cons, hw]
        rw [hstep] at h
        exact List.mem_cons_of_mem _ (ih h)
    | disconnectOp w =>
      have hstep : stillConnectedFrom false (RegistryOp.disconnectOp w :: ops) ws =
          stillConnectedFrom false ops ws := by
        by_cases hw : w = ws <;> simp [stillConnectedFrom, List.foldl_cons, hw]
      rw [hstep] at h
      exact List.mem_cons_of_mem _ (ih h)

theorem mem_connectedIds_of_stillConnected {ops : List RegistryOp} {ws : Nat}
    (h : stillConnected ops ws = true) : ws ∈ connectedIds ops := by
  unfold connectedIds
  rw [List.mem_dedup, List.mem_filterMap]
  exact ⟨RegistryOp.connectOp ws, stillConnectedFrom_false_connect h, rfl⟩

/-- C3: after any sequence of registry operations from the empty registry,
the snapshot's length equals the number of distinct identities that were
connected and not subsequently disconnected; connecting an already-present
identity is a no-op on the membership set; and no identity whose last
operation was a disconnect is retained. -/
theorem registry_snapshot_length (ops : List RegistryOp) :
    (runOps ops).length =
      ((connectedIds ops).filter (fun ws => stillConnected ops ws)).length ∧
    (∀ (s : List Nat) (ws : Nat), ws ∈ s → applyOp s (.connectOp ws) = s) ∧
    (∀ ws, ws ∈ runOps ops → stillConnected ops ws = true) := by
  refine ⟨?_, ?_, fun ws h => mem_runOps.mp h⟩
  · have hL : (runOps ops).Nodup := foldl_applyOp_nodup ops List.nodup_nil
    have hR : ((connectedIds ops).filter
        (fun ws => stillConnected ops ws)).Nodup :=
      List.Nodup.filter _ (List.nodup_dedup _)
    have hmem : ∀ ws, ws ∈ runOps ops ↔
        ws ∈ (connectedIds ops).filter (fun ws => stillConnected ops ws) := by
      intro ws
      rw [mem_runOps, List.mem_filter]
      constructor
      · exact fun h => ⟨mem_connectedIds_of_stillConnected h, h⟩
      · exact And.right
    have hfin : (runOps ops).toFinset =
        ((connectedIds ops).filter (fun ws => stillConnected ops ws)).toFinset := by
      ext ws
      simp only [List.mem_toFinset]
      exact hmem ws
    calc (runOps ops).length
        = (runOps ops).toFinset.card := (List.toFinset_card_of_nodup hL).symm
      _ = ((connectedIds ops).filter
            (fun ws => stillConnected ops ws)).toFinset.card := by rw [hfin]
      _ = ((connectedIds ops).filter
            (fun ws => stillConnected ops ws)).length :=
          List.toFinset_card_of_nodup hR
  · intro s ws h
    simp [applyOp, setAdd, h]

/-- C3 witness: connect 1, connect 2, connect 2 again (no-op), disconnect 1. -/
theorem registry_snapshot_length_witness :
    (runOps [RegistryOp.connectOp 1, RegistryOp.connectOp 2,
             RegistryOp.connectOp 2, RegistryOp.disconnectOp 1]).length =
      ((connectedIds [RegistryOp.connectOp 1, RegistryOp.connectOp 2,
                      RegistryOp.connectOp 2, RegistryOp.disconnectOp 1]).filter
        (fun ws => stillConnected [RegistryOp.connectOp 1, RegistryOp.connectOp 2,
                                   RegistryOp.connectOp 2,
                                   RegistryOp.disconnectOp 1] ws)).length :=
  (registry_snapshot_length _).1

/-- C5: `disconnect` of an identity that is not registered is a no-op that
returns the manager state unchanged (Python's `set.discard` never raises),
and `disconnect` is idempotent, hence safe to call repeatedly. -/
theorem disconnect_absent_noop (m : ConnectionManager) (ws : Nat) :
    (ws ∉ m.active_connections → disconnect m ws = m) ∧
    disconnect (disconnect m ws) ws = disconnect m ws := by
  constructor
  · intro h
    have : setDiscard m.active_connections ws = m.active_connections := by
      apply List.filter_eq_self.mpr
      intro a ha
      simp only [decide_eq_true_eq]
      exact fun he => h (he ▸ ha)
    simp [disconnect, this]
  · have : ∀ a ∈ setDiscard m.active_connections ws, a ≠ ws := by
      intro a ha
      exact (mem_setDiscard.mp ha).2
    simp only [disconnect, ConnectionManager.mk.injEq]
    apply List.filter_eq_self.mpr
    intro a ha
    simp only [decide_eq_true_eq]
    exact this a ha

/-- C5 witness: disconnecting the absent identity 3 from a registry holding
1 and 2. -/
theorem disconnect_absent_noop_witness :
    disconnect ⟨[1, 2]⟩ 3 = ⟨[1, 2]⟩ :=
  (disconnect_absent_noop ⟨[1, 2]⟩ 3).1 (by decide)

/-- C6 counterexample: `connect` is not limited to adding the connection to
the membership set — its body begins with `await websocket.accept()`, which
completes the server side of the connection-establishment handshake.  On a
not-yet-accepted websocket (identity 0, the state every websocket has when
`websocket_endpoint` starts), `connect` changes the connection's handshake
state, so the per-connection states after the call differ from those
before. -/
theorem connect_performs_handshake_counterexample :
    (connect ⟨[]⟩ (fun _ => ⟨false⟩) 0).2 ≠ (fun _ => (⟨false⟩ : WebSocketState)) := by
  intro h
  have h0 := congrFun h 0
  simp [connect, acceptWs] at h0

/-- C6 amended: `connect` itself completes the connection-establishment
handshake by accepting the websocket, and then adds it to the membership set;
its effects are exactly these two — the accepted connection is marked
accepted, every other connection's state is untouched, and the membership set
afterwards is the old one plus the new identity. -/
theorem connect_accepts_then_registers (m : ConnectionManager)
    (conns : Nat → WebSocketState) (ws : Nat) :
    ((connect m conns ws).2 ws).accepted = true ∧
    (∀ c, c ≠ ws → (connect m conns ws).2 c = conns c) ∧
    (∀ c, c ∈ (connect m conns ws).1.active_connections ↔
      c ∈ m.active_connections ∨ c = ws) := by
  refine ⟨by simp [connect, acceptWs], ?_, ?_⟩
  · intro c hc
    simp [connect, acceptWs, hc]
  · intro c
    exact mem_setAdd

/-- C6 witness: connecting identity 5 to the empty registry marks it
accepted. -/
theorem connect_accepts_then_registers_witness :
    ((connect ⟨[]⟩ (fun _ => ⟨true⟩) 5).2 5).accepted = true :=
  (connect_accepts_then_registers ⟨[]⟩ (fun _ => ⟨true⟩) 5).1

/-- C7: the join path registers the joiner first and then broadcasts the join
notice with `exclude=None`, so the broadcast's snapshot is the old membership
plus the joiner: the joiner itself gets a write of the join notice, and every
connection registered at that moment — previously-joined peers included —
gets exactly one write of it. -/
theorem join_notice_reaches_everyone (m : ConnectionManager)
    (conns : Nat → WebSocketState) (fails : Nat → Bool) (ws : Nat)
    (clientId : String) (hnd : m.active_connections.Nodup) :
    ∃ writes, (websocketJoin m conns fails ws clientId).2.2 = .ok writes ∧
      (∃ r, (ws, joinNotice clientId, r) ∈ writes) ∧
      (∀ c, c ∈ setAdd m.active_connections ws →
        (writes.map (fun w => w.1)).count c = 1) ∧
      (∀ c, c ∈ m.active_connections →
        (writes.map (fun w => w.1)).count c = 1) := by
  have hreg : (connect m conns ws).1.active_connections =
      setAdd m.active_connections ws := rfl
  have hsnd : (websocketJoin m conns fails ws clientId).2.2 =
      (broadcast (connect m conns ws).1 fails (joinNotice clientId) none).2 :=
    rfl
  rw [hsnd, broadcast_snd_eq, hreg, sendTaskTargets_none]
  have hnd2 : (setAdd m.active_connections ws).Nodup := setAdd_nodup hnd ws
  refine ⟨_, rfl, ?_, ?_, ?_⟩
  · exact ⟨send_text fails ws (joinNotice clientId),
      List.mem_map.mpr ⟨ws, mem_setAdd.mpr (Or.inr rfl), rfl⟩⟩
  · intro c hc
    rw [writes_map_fst]
    exact List.count_eq_one_of_mem hnd2 hc
  · intro c hc
    rw [writes_map_fst]
    exact List.count_eq_one_of_mem hnd2 (mem_setAdd.mpr (Or.inl hc))

/-- C7 witness: identity 3 joins a registry holding 1 and 2. -/
theorem join_notice_reaches_everyone_witness :
    ∃ writes,
      (websocketJoin ⟨[1, 2]⟩ (fun _ => ⟨true⟩) (fun _ => false) 3 "A").2.2 =
        .ok writes ∧
      (∃ r, (3, joinNotice "A", r) ∈ writes) ∧
      (∀ c, c ∈ setAdd [1, 2] 3 → (writes.map (fun w => w.1)).count c = 1) ∧
      (∀ c, c ∈ [1, 2] → (writes.map (fun w => w.1)).count c = 1) :=
  join_notice_reaches_everyone ⟨[1, 2]⟩ (fun _ => ⟨true⟩) (fun _ => false) 3 "A"
    (by decide)

/-- C9: for each inbound message the loop body's trace is exactly the direct
echo to the sender followed by the broadcast of the message text excluding
the sender, and no broadcast event occurs in the trace before the echo. -/
theorem echo_precedes_broadcast (ws : Nat) (clientId data : String) :
    handleInbound ws clientId data =
      [ .sendPersonal ws ("You wrote: " ++ data),
        .broadcastAll ("Client #" ++ clientId ++ " says: " ++ data) (some ws) ] ∧
    ∀ (l1 l2 : List Event) (e : Event),
      handleInbound ws clientId data = l1 ++ e :: l2 →
      e.isBroadcast = true →
      Event.sendPersonal ws ("You wrote: " ++ data) ∈ l1 := by
  refine ⟨rfl, ?_⟩
  intro l1 l2 e heq hbc
  cases l1 with
  | nil =>
    simp only [handleInbound, List.nil_append, List.cons.injEq] at heq
    rw [← heq.1] at hbc
    simp [Event.isBroadcast] at hbc
  | cons a t =>
    have ha : Event.sendPersonal ws ("You wrote: " ++ data) = a := by
      simpa [handleInbound] using congrArg List.head? heq
    rw [ha]
    exact List.mem_cons_self _ _

/-- C9 witness: connection 0, client id "A", inbound text "hi". -/
theorem echo_precedes_broadcast_witness :
    handleInbound 0 "A" "hi" =
      [ .sendPersonal 0 ("You wrote: " ++ "hi"),
        .broadcastAll ("Client #" ++ "A" ++ " says: " ++ "hi") (some 0) ] :=
  (echo_precedes_broadcast 0 "A" "hi").1

end FastapiChat
